import Mathlib

/-!
Verification of the intent-dispatch core of the `meu-bot-agenda` Telegram
assistant. The JavaScript sources are shallowly embedded: per-user mutable
`Map`s / plain objects become association lists keyed by user id, wall-clock
instants (`Date.now()`) become explicit `Nat` millisecond parameters, remote
collaborator calls (Google Calendar, Trello, the classifier) are either
parameters of the embedded dispatch functions or recorded as emitted effects,
and synchronous disk persistence is modelled by a mirror field plus a write
counter. String payloads that the logic never inspects stay `String`.
-/

namespace MeuBotAgenda

/-! ## Association-list model of per-user keyed state

`pendingConfirmations` is a JS `Map` and `actionHistory` a plain object, both
keyed by user id; reads take the entry for one key, writes replace it. -/

/-- JS `p.startsWith(s)` at the character level. -/
def strStartsWith : List Char → List Char → Bool
  | [], _ => true
  | _ :: _, [] => false
  | p :: ps, s :: ss => p == s && strStartsWith ps ss

/-- JS `s.startsWith(pre)` (JS `String.prototype.startsWith`). -/
def startsWithStr (s pre : String) : Bool := strStartsWith pre.data s.data

/-- JS `s.toLowerCase()` on the character sequence. -/
def toLowerStr (s : String) : String := String.mk (s.data.map Char.toLower)

/-- JS `s.includes(c)` for a single character. -/
def containsChar (s : String) (c : Char) : Bool := s.data.any (fun a => a == c)

/-- JS string falsiness test: the empty string. -/
def strIsEmpty (s : String) : Bool := s.data.isEmpty

def alistFind {α : Type} (l : List (String × α)) (k : String) : Option α :=
  (l.find? (fun p => p.1 == k)).map (fun p => p.2)

def alistErase {α : Type} (l : List (String × α)) (k : String) : List (String × α) :=
  l.filter (fun p => p.1 != k)

def alistSet {α : Type} (l : List (String × α)) (k : String) (v : α) : List (String × α) :=
  (k, v) :: alistErase l k

/-! ## src/utils/confirmation.js -/

structure Confirmation where
  id : String
  userId : String
  actionType : String
  data : String
  message : String
  items : List String
  createdAt : Nat
  expires : Nat
deriving DecidableEq, Repr

/-- JS `CONFIRMATION_TIMEOUT = 2 * 60 * 1000` (milliseconds). -/
def CONFIRMATION_TIMEOUT : Nat := 2 * 60 * 1000

abbrev ConfirmationStore := List (String × Confirmation)

/-- The confirmation id is `"conf_"` followed by `Date.now().toString(36)`:
derived injectively from the creation instant; the base-36 rendering is
modelled by the decimal one. -/
def confId (now : Nat) : String := "conf_" ++ toString now

/-- JS `createConfirmation(userId, actionType, data, message, items)`: builds the
confirmation with `expires = Date.now() + CONFIRMATION_TIMEOUT` and stores it
under the user's key (last write wins). Returns the confirmation and the new
store. The parallel `setTimeout` auto-clean (which fires no earlier than the
timeout) is not part of this deterministic embedding. -/
def createConfirmation (store : ConfirmationStore) (userId actionType data message : String)
    (items : List String) (now : Nat) : Confirmation × ConfirmationStore :=
  let c : Confirmation :=
    { id := confId now, userId := userId, actionType := actionType, data := data,
      message := message, items := items, createdAt := now,
      expires := now + CONFIRMATION_TIMEOUT }
  (c, alistSet store userId c)

/-- JS `getPendingConfirmation(userId)`: returns `null` when absent; evicts and
returns `null` when `Date.now() > confirmation.expires`; otherwise returns the
stored confirmation. Also returns the (possibly mutated) store. -/
def getPendingConfirmation (store : ConfirmationStore) (userId : String) (now : Nat) :
    Option Confirmation × ConfirmationStore :=
  match alistFind store userId with
  | none => (none, store)
  | some c =>
    if c.expires < now then (none, alistErase store userId)
    else (some c, store)

/-- JS `clearConfirmation(userId)`. -/
def clearConfirmation (store : ConfirmationStore) (userId : String) : ConfirmationStore :=
  alistErase store userId

/-- Outcome of the `confirm_yes_*` callback handler in src/unnamed/part_003. -/
inductive YesOutcome where
  /-- reply `⚠️ Esta confirmação expirou ou já foi processada.` and stop -/
  | stale : YesOutcome
  /-- clear the stored confirmation and run `executeConfirmedAction` on it -/
  | executed : Confirmation → YesOutcome
deriving DecidableEq, Repr

/-- JS `bot.action(/^confirm_yes_(.+)$/)`: fetch the pending confirmation; if
absent or its id differs from the callback's id, answer with the
expired/processed message; otherwise clear it and execute the pending action. -/
def confirmYes (store : ConfirmationStore) (userId cbId : String) (now : Nat) :
    YesOutcome × ConfirmationStore :=
  let fetched := getPendingConfirmation store userId now
  match fetched.1 with
  | none => (.stale, fetched.2)
  | some pending =>
    if pending.id ≠ cbId then (.stale, fetched.2)
    else (.executed pending, clearConfirmation fetched.2 userId)

/-- JS `bot.action(/^confirm_no_(.+)$/)`: clears the user's pending confirmation
unconditionally — the captured callback id is never compared — and edits the
message to `❌ Ação cancelada.`. -/
def confirmNo (store : ConfirmationStore) (userId cbId : String) :
    String × ConfirmationStore :=
  let _ := cbId
  ("❌ Ação cancelada.", clearConfirmation store userId)

/-! ## src/utils/actionHistory.js -/

structure HistoryEntry where
  /-- Source: `Date.now().toString(36) + Math.random().toString(36).substr(2, 5)`:
  the timestamp rendering concatenated with a random suffix (a parameter of
  the embedding). -/
  id : String
  type : String
  undoType : String
  data : String
  result : Option String
  /-- Source: `new Date().toISOString()` modelled as the millisecond instant. -/
  timestamp : Nat
  undone : Bool
  /-- Source: `undoneAt`, set by `markAsUndone`. -/
  undoneAt : Option Nat
deriving DecidableEq, Repr

/-- The module state: the in-memory `actionHistory` object, the content of
`action_history.json` after the last `saveHistory`, and a count of disk
writes (each `fs.writeFileSync` call). -/
structure HistoryState where
  actionHistory : List (String × List HistoryEntry)
  diskFile : List (String × List HistoryEntry)
  diskWrites : Nat
deriving DecidableEq, Repr

def MAX_HISTORY_PER_USER : Nat := 20

/-- JS `UNDOABLE_ACTIONS`: the static forward-action → inverse-action table. -/
def UNDOABLE_ACTIONS : String → Option String
  | "create_event" => some "delete_event"
  | "complete_event" => some "uncomplete_event"
  | "complete_all_events" => some "uncomplete_events"
  | "delete_event" => some "restore_event"
  | "trello_create" => some "trello_delete"
  | "trello_archive" => some "trello_unarchive"
  | "trello_move" => some "trello_move_back"
  | "store_info" => some "delete_info"
  | _ => none

/-- JS `saveHistory()`: `fs.writeFileSync(HISTORY_FILE, JSON.stringify(actionHistory))`. -/
def saveHistory (s : HistoryState) : HistoryState :=
  { s with diskFile := s.actionHistory, diskWrites := s.diskWrites + 1 }

/-- JS `recordAction(userId, actionType, data, result)`: returns immediately when
`UNDOABLE_ACTIONS[actionType]` is absent; otherwise builds the entry,
`unshift`s it onto the user's list, slices the list to
`MAX_HISTORY_PER_USER` when it exceeds the cap, and saves to disk. `now` is
`Date.now()` and `rand` the random id suffix. -/
def recordAction (s : HistoryState) (userId actionType data : String)
    (result : Option String) (now : Nat) (rand : String) : HistoryState :=
  match UNDOABLE_ACTIONS actionType with
  | none => s
  | some undoType =>
    let prior := (alistFind s.actionHistory userId).getD []
    let entry : HistoryEntry :=
      { id := toString now ++ rand, type := actionType, undoType := undoType,
        data := data, result := result, timestamp := now, undone := false,
        undoneAt := none }
    let updated := entry :: prior
    let bounded :=
      if MAX_HISTORY_PER_USER < updated.length then updated.take MAX_HISTORY_PER_USER
      else updated
    saveHistory { s with actionHistory := alistSet s.actionHistory userId bounded }

/-- JS `getLastAction(userId)`: `null` when the user has no (or an empty) list,
else the first entry with `undone == false`, else `null`. -/
def getLastAction (s : HistoryState) (userId : String) : Option HistoryEntry :=
  match alistFind s.actionHistory userId with
  | none => none
  | some l => l.find? (fun a => !a.undone)

/-- JS `actionHistory[userId].find(a => a.id === actionId)` followed by the
in-place mutation `action.undone = true; action.undoneAt = ...`: update the
first entry carrying the id, or fail. -/
def markFirst (l : List HistoryEntry) (actionId : String) (now : Nat) :
    Option (List HistoryEntry) :=
  match l with
  | [] => none
  | a :: rest =>
    if a.id = actionId then some ({ a with undone := true, undoneAt := some now } :: rest)
    else
      match markFirst rest actionId now with
      | some rest' => some (a :: rest')
      | none => none

/-- JS `markAsUndone(userId, actionId)`: flags the matching entry (setting
`undone` and `undoneAt`), saves to disk and returns `true`; returns `false`
without touching state when the user or the entry is unknown. -/
def markAsUndone (s : HistoryState) (userId actionId : String) (now : Nat) :
    HistoryState × Bool :=
  match alistFind s.actionHistory userId with
  | none => (s, false)
  | some l =>
    match markFirst l actionId now with
    | none => (s, false)
    | some l' =>
      (saveHistory { s with actionHistory := alistSet s.actionHistory userId l' }, true)

/-! ## Intent records (classifier output, as consumed by src/unnamed/part_003) -/

structure Intent where
  tipo : String
  summary : String := ""
  query : String := ""
  start : Option String := none
  /-- the intent's `end` field (ISO 8601). -/
  stop : Option String := none
  priority : Option String := none
  name : Option String := none
  title : Option String := none
  list_query : Option String := none
deriving DecidableEq, Repr

/-! ## processIntent, create_event branch (src/unnamed/part_003) -/

/-- A suggested alternative slot as stored in `ctx.session.conflictSuggestions`. -/
structure Slot where
  startISO : String
  endISO : String
deriving DecidableEq, Repr

/-- The record returned by `smartScheduling.checkConflicts`, as consumed by the
dispatcher. -/
structure ConflictCheck where
  hasConflict : Bool
  suggestions : List Slot
deriving DecidableEq, Repr

/-- The record returned by `smartScheduling.validateSchedulingContext`. -/
structure ContextValidation where
  isValid : Bool
  warnings : List String
deriving DecidableEq, Repr

/-- The event object returned by `googleService.createEvent`. -/
structure CreatedEvent where
  id : String
  htmlLink : String
  hangoutLink : Option String
deriving DecidableEq, Repr

/-- Observable outcome of the `create_event` branch of `processIntent`:
payloads passed to `googleService.createEvent`, cache scopes passed to
`scheduler.invalidateCache`, the action-history state afterwards, the replies
sent, and the flow-state slots written. -/
structure CreateEventOutcome where
  createCalls : List Intent
  invalidated : List String
  hist : HistoryState
  replies : List String
  sessionPendingEvent : Option Intent
  sessionSuggestions : Option (List Slot)
deriving DecidableEq, Repr

/-- The `create_event` / `evento` branch of `processIntent`. The collaborator
results — the conflict check, `formatConflictMessage` output, the context
validation, the created event and `formatFriendlyDate(intent.start)` — are
parameters. On conflict: stash the intent and suggestions in the session and
reply with the conflict message. On invalid context: reply with the first
warning. Otherwise: create the event, invalidate the `events` cache and reply
with the success message built around the intent's summary. No
`actionHistory.recordAction` call occurs anywhere in this branch. -/
def processCreateEvent (intent : Intent) (conflictCheck : ConflictCheck)
    (conflictMsg : String) (contextValidation : ContextValidation)
    (event : CreatedEvent) (friendlyDate : String) (hist : HistoryState) :
    CreateEventOutcome :=
  if conflictCheck.hasConflict then
    { createCalls := [], invalidated := [], hist := hist,
      replies := [conflictMsg],
      sessionPendingEvent := some intent,
      sessionSuggestions := some conflictCheck.suggestions }
  else if !contextValidation.isValid then
    { createCalls := [], invalidated := [], hist := hist,
      replies := ["⚠️ *Não foi possível agendar*\n\n" ++ contextValidation.warnings.headD ""],
      sessionPendingEvent := none, sessionSuggestions := none }
  else
    let emoji := if event.hangoutLink.isSome then "📹" else "📅"
    let msg0 := "✅ *Agendado:* [" ++ intent.summary ++ "](" ++ event.htmlLink ++ ")\n"
      ++ emoji ++ " " ++ friendlyDate
    let msg1 :=
      if intent.priority = some "high" then "🔴 *URGENTE* - " ++ msg0
      else if intent.priority = some "medium" then "🟡 " ++ msg0
      else msg0
    let msg2 :=
      match event.hangoutLink with
      | some link => msg1 ++ "\n\n📹 [Entrar na reunião](" ++ link ++ ")"
      | none => msg1
    let msg3 :=
      if 0 < contextValidation.warnings.length then
        msg2 ++ "\n\n⚠️ _" ++ String.intercalate " | " contextValidation.warnings ++ "_"
      else msg2
    { createCalls := [intent], invalidated := ["events"], hist := hist,
      replies := [msg3],
      sessionPendingEvent := none, sessionSuggestions := none }

/-! ## bot.on('text') — pendingEventUpdate flow-state handler (src/unnamed/part_003) -/

/-- JS `ctx.session.pendingEventUpdate`. -/
structure PendingEventUpdate where
  id : String
  field : String
deriving DecidableEq, Repr

/-- The partial payload passed to `googleService.updateEvent`. -/
structure EventUpdates where
  summary : Option String := none
  location : Option String := none
  start : Option String := none
  stop : Option String := none
deriving DecidableEq, Repr

/-- Observable outcome of the `pendingEventUpdate` block of the text handler:
update calls issued, replies sent, the flow-state slot afterwards (`none`
means it was deleted, i.e. back to idle) and cache invalidations. -/
structure EventUpdateOutcome where
  updateCalls : List (String × EventUpdates)
  replies : List String
  sessionAfter : Option PendingEventUpdate
  invalidated : List String
deriving DecidableEq, Repr

/-- The `if (ctx.session?.pendingEventUpdate)` block. `timeIntent` is the
classifier's interpretation of `"alterar horário para " + text` (used only in
the `time` branch) and `plusOneHour` / `friendly` embed the luxon
date helpers. In the `summary` and `location` branches the incoming text is
sent verbatim as the new field value; only the `time` branch checks for the
`cancelar` / `voltar` keywords, and only an unintelligible new time leaves the
flow-state in place for a retry. -/
def handlePendingEventUpdate (pending : PendingEventUpdate) (text : String)
    (timeIntent : Intent) (plusOneHour : String → String)
    (friendly : String → String) : EventUpdateOutcome :=
  let id := pending.id
  if pending.field = "summary" then
    { updateCalls := [(id, { summary := some text })],
      replies := ["✅ Título atualizado!"],
      sessionAfter := none, invalidated := ["events"] }
  else if pending.field = "location" then
    { updateCalls := [(id, { location := some text })],
      replies := ["✅ Local atualizado!"],
      sessionAfter := none, invalidated := ["events"] }
  else if pending.field = "time" then
    if toLowerStr text = "cancelar" ∨ toLowerStr text = "voltar" then
      { updateCalls := [], replies := ["👍 Edição de horário cancelada."],
        sessionAfter := none, invalidated := [] }
    else
      match timeIntent.start with
      | some st =>
        let stop :=
          match timeIntent.stop with
          | some e => some e
          | none => if containsChar st 'T' then some (plusOneHour st) else none
        { updateCalls := [(id, { start := some st, stop := stop })],
          replies := ["✅ Horário atualizado para " ++ friendly st ++ "!"],
          sessionAfter := none, invalidated := ["events"] }
      | none =>
        { updateCalls := [],
          replies := ["⚠️ Não consegui entender o novo horário. Tente novamente (ex: \"amanhã às 15h\") ou digite \"cancelar\" para sair."],
          sessionAfter := some pending, invalidated := [] }
  else
    { updateCalls := [], replies := [], sessionAfter := none,
      invalidated := ["events"] }

/-! ## bot.on('text') — the per-intent loop (src/unnamed/part_003) -/

/-- The reply sent by the per-intent `catch` block. -/
def intentFailureMsg (tipo : String) : String :=
  "⚠️ Tive um problema ao processar: " ++ tipo ++ ". Mas o resto pode ter funcionado."

/-- JS `for (const intent of intents) try ... catch ...`: process intents in
order; `process` models `processIntent` returning either its replies or a
thrown error, and a failure contributes the warning naming `intent.tipo`
instead of aborting the loop. -/
def dispatchBatch (process : Intent → Except String (List String)) :
    List Intent → List String
  | [] => []
  | i :: rest =>
    (match process i with
     | .ok replies => replies
     | .error _ => [intentFailureMsg i.tipo]) ++ dispatchBatch process rest

/-! ## findTrelloCardByQuery (src/unnamed/part_003) -/

structure TrelloCard where
  id : String
  name : String
deriving DecidableEq, Repr

/-- Case-insensitive removal of a leading word, as a regex alternative tried
with the `i` flag: returns the remaining characters on success. -/
def dropWordCI : List Char → List Char → Option (List Char)
  | [], s => some s
  | _ :: _, [] => none
  | c :: cs, a :: as => if a.toLower = c.toLower then dropWordCI cs as else none

/-- The tail `\s*0*(\d+)$` of the number regex: after optional whitespace the
whole remainder must be a non-empty digit run; the capture group is that run
with the zeros consumed by the greedy `0*` stripped (one digit is always left
for `(\d+)`). -/
def parseNumTail (s : List Char) : Option String :=
  let s1 := s.dropWhile (fun c => c.isWhitespace)
  if s1.isEmpty then none
  else if s1.all (fun c => c.isDigit) then
    let ds := s1.dropWhile (fun c => c = '0')
    some (String.mk (if ds.isEmpty then ['0'] else ds))
  else none

/-- JS `query.match(/^(?:item|card|tarefa|n[º°])?\s*0*(\d+)$/i)`: the captured
number, with each alternative of the optional word tried in order. -/
def numberMatch (query : String) : Option String :=
  let qs := query.data
  let tryWord := fun (w : String) =>
    match dropWordCI w.data qs with
    | some rest => parseNumTail rest
    | none => none
  (tryWord "item").orElse fun _ =>
  (tryWord "card").orElse fun _ =>
  (tryWord "tarefa").orElse fun _ =>
  (tryWord "nº").orElse fun _ =>
  (tryWord "n°").orElse fun _ =>
  parseNumTail qs

/-- JS `num.padStart(2, '0')`. -/
def padStart2 (s : String) : String :=
  if s.length < 2 then String.mk (List.replicate (2 - s.length) '0') ++ s else s

/-- The numeric-stage test: the card's name starts with the zero-padded number
followed by a period, or with the bare number followed by a period. -/
def numericCardHit (num : String) (c : TrelloCard) : Bool :=
  startsWithStr c.name (padStart2 num ++ ".") || startsWithStr c.name (num ++ ".")

/-- JS `findTrelloCardByQuery(query)` over an already-fetched card list. Stage 1
tries the numeric match and returns its hit immediately; otherwise the fuzzy
matcher (`findTrelloCardFuzzy`, a parameter here — src/utils/fuzzySearch.js is
not among the provided sources) runs, and on a miss the remote
`trelloService.searchCards` fallback supplies its first result, with a thrown
search error swallowed to a miss. -/
def findTrelloCardByQuery (fuzzy : List TrelloCard → String → Option TrelloCard)
    (searchApi : Except Unit (List TrelloCard)) (cards : List TrelloCard)
    (query : String) : Option TrelloCard :=
  let fallback :=
    match fuzzy cards query with
    | some c => some c
    | none =>
      match searchApi with
      | .ok results => results.head?
      | .error _ => none
  match numberMatch query with
  | some num =>
    match cards.find? (numericCardHit num) with
    | some c => some c
    | none => fallback
  | none => fallback

/-! ## processIntent, trello_create auto-numbering (src/unnamed/part_003) -/

/-- JS `name.match(/^(\d+)\./)` with `parseInt` of the capture: the leading digit
run when it is non-empty and immediately followed by a period. -/
def numericPfx (name : String) : Option Nat :=
  let ds := name.data.takeWhile (fun c => c.isDigit)
  if ds.isEmpty then none
  else if name.data.get? ds.length = some '.' then
    some (ds.foldl (fun n c => n * 10 + (c.toNat - '0'.toNat)) 0)
  else none

/-- The `maxNum` accumulation over the target list's existing cards: keep the
largest leading numeric value seen, starting from `0`. -/
def maxNumericPfx (cards : List TrelloCard) : Nat :=
  cards.foldl
    (fun m c =>
      match numericPfx c.name with
      | some n => if m < n then n else m
      | none => m)
    0

/-- The AUTO-NUMBERING block of the `trello_create` branch: when fetching the
target list's cards succeeds, a truthy card name that does not already start
with digits-and-period gets the `String(maxNum + 1).padStart(2, '0') + '. '`
sequence number; when the computation throws (error fetching the list), the
catch block keeps the name as is and creation proceeds without numbering. -/
def autoNumberedName (fetchCards : Except Unit (List TrelloCard)) (name : String) : String :=
  match fetchCards with
  | .error _ => name
  | .ok cards =>
    let pfx := padStart2 (toString (maxNumericPfx cards + 1)) ++ ". "
    if strIsEmpty name then name
    else if (numericPfx name).isSome then name
    else pfx ++ name

/-! ## ConflictEngine (spec-modelled)

`src/services/smartScheduling.js` is required by src/unnamed/part_003 but is
not among the provided sources; the definitions below are modelled from the
spec. -/

/-- Modelled from the spec: an existing time-boxed commitment as seen by the
missing `smartScheduling.checkConflicts` — an interval plus the
all-day/date-only flag the spec's design choice singles out. Instants are
minutes. -/
structure Commitment where
  start : Nat
  stop : Nat
  dateOnly : Bool
deriving DecidableEq, Repr

/-- Modelled from the spec: the proposed intent's time bounds — `start`,
optional `end`, and whether the proposal is time-specific. -/
structure Proposal where
  start : Nat
  stop : Option Nat
  timeSpecific : Bool
deriving DecidableEq, Repr

/-- Modelled from the spec: the default duration assumed when `end` is absent
(60 minutes). -/
def DEFAULT_DURATION : Nat := 60

/-- Half-open interval intersection: `[s1, e1)` meets `[s2, e2)`. -/
def intervalsOverlap (s1 e1 s2 e2 : Nat) : Bool :=
  decide (s1 < e2) && decide (s2 < e1)

/-- Modelled from the spec: the output record of `checkConflicts`. -/
structure SpecConflictResult where
  hasConflict : Bool
  suggestions : List (Nat × Nat)
deriving DecidableEq, Repr

/-- Modelled from the spec: a slot is free when it overlaps no existing
commitment. -/
def slotFree (existing : List Commitment) (s e : Nat) : Bool :=
  existing.all (fun c => !intervalsOverlap s e c.start c.stop)

/-- Modelled from the spec: the suggestion scan — step forward from the
proposal in increments of its duration within a bounded window, keep the
slots of the requested duration that overlap no commitment, capped at 3,
chronologically. -/
def findSuggestions (existing : List Commitment) (pStart pEnd : Nat) : List (Nat × Nat) :=
  let dur := pEnd - pStart
  let candidates := (List.range 72).map (fun k => pStart + (k + 1) * dur)
  ((candidates.filter (fun s => slotFree existing s (s + dur))).take 3).map
    (fun s => (s, s + dur))

/-- Modelled from the spec: `smartScheduling.checkConflicts` — with the end
defaulted to 60 minutes past the start, any existing commitment intersecting
`[start, end)` constitutes a conflict, except that all-day/date-only entries
are skipped when the proposal is time-specific; on conflict the alternative
slots are computed. -/
def checkConflicts (existing : List Commitment) (p : Proposal) : SpecConflictResult :=
  let pEnd := p.stop.getD (p.start + DEFAULT_DURATION)
  let isConflict := fun (c : Commitment) =>
    intervalsOverlap p.start pEnd c.start c.stop && !(c.dateOnly && p.timeSpecific)
  { hasConflict := existing.any isConflict,
    suggestions := findSuggestions existing p.start pEnd }

/-! ## Concrete failing input for scenario A (used by claim C2) -/

/-- The scenario-A message `Reunião amanhã às 14h` as classified: a
`create_event` intent titled `Reunião` for tomorrow 14:00–15:00 local. -/
def scenarioAIntent : Intent :=
  { tipo := "create_event", summary := "Reunião",
    start := some "2026-10-12T14:00:00-03:00", stop := some "2026-10-12T15:00:00-03:00" }

/-- Dispatching `scenarioAIntent` with no conflict, a valid context, a created
event carrying link `https://cal/ev1` and no Meet link, and an empty action
history. -/
def scenarioAOutcome : CreateEventOutcome :=
  processCreateEvent scenarioAIntent ⟨false, []⟩ "" ⟨true, []⟩
    ⟨"ev1", "https://cal/ev1", none⟩ "amanhã às 14:00" ⟨[], [], 0⟩

/-! ## Helper lemmas -/

theorem alistFind_set_self {α : Type} (l : List (String × α)) (k : String) (v : α) :
    alistFind (alistSet l k v) k = some v := by
  simp [alistFind, alistSet, List.find?]

/-! ## Claim C4 — ConfirmationStore expiry -/

/-- C4 counterexample: a confirmation created at `T = 0` is still returned by
`getPendingConfirmation` at query time exactly `T + CONFIRMATION_TIMEOUT`,
refuting the claim that it is absent at any query time at or after
`T + timeout` (the expiry check is the strict `Date.now() > expires`). -/
theorem c4_counterexample :
    (getPendingConfirmation (createConfirmation [] "u" "complete_all_events" "d" "m" [] 0).2
        "u" (0 + CONFIRMATION_TIMEOUT)).1
      = some (createConfirmation [] "u" "complete_all_events" "d" "m" [] 0).1 := by
  decide

/-- C4 (amended): a confirmation created at time `T` with the fixed 2-minute
timeout is returned by `getPendingConfirmation` at any query time at or
before `T + CONFIRMATION_TIMEOUT`, and is absent — with the entry evicted —
at any query time strictly after `T + CONFIRMATION_TIMEOUT`. -/
theorem c4_retrievable_until_timeout (store : ConfirmationStore)
    (userId actionType data message : String) (items : List String) (T now : Nat) :
    (now ≤ T + CONFIRMATION_TIMEOUT →
      getPendingConfirmation (createConfirmation store userId actionType data message items T).2
          userId now
        = (some (createConfirmation store userId actionType data message items T).1,
           (createConfirmation store userId actionType data message items T).2))
    ∧ (T + CONFIRMATION_TIMEOUT < now →
      getPendingConfirmation (createConfirmation store userId actionType data message items T).2
          userId now
        = (none,
           alistErase (createConfirmation store userId actionType data message items T).2 userId)) := by
  have hfind :
      alistFind (createConfirmation store userId actionType data message items T).2 userId
        = some (createConfirmation store userId actionType data message items T).1 :=
    alistFind_set_self _ _ _
  constructor
  · intro h
    simp only [getPendingConfirmation, hfind]
    rw [if_neg]
    simp only [createConfirmation]
    omega
  · intro h
    simp only [getPendingConfirmation, hfind]
    rw [if_pos]
    simp only [createConfirmation]
    omega

/-- C4 witness: at `T = 0` the confirmation is returned at query time
120000 ms (= the timeout) and gone at 120001 ms. -/
theorem c4_retrievable_until_timeout_witness :
    getPendingConfirmation (createConfirmation [] "u" "a" "d" "m" [] 0).2 "u" 120000
      = (some (createConfirmation [] "u" "a" "d" "m" [] 0).1,
         (createConfirmation [] "u" "a" "d" "m" [] 0).2)
    ∧ getPendingConfirmation (createConfirmation [] "u" "a" "d" "m" [] 0).2 "u" 120001
      = (none, alistErase (createConfirmation [] "u" "a" "d" "m" [] 0).2 "u") :=
  ⟨(c4_retrievable_until_timeout [] "u" "a" "d" "m" [] 0 120000).1 (by decide),
   (c4_retrievable_until_timeout [] "u" "a" "d" "m" [] 0 120001).2 (by decide)⟩

/-! ## Claim C3 — stale confirmation callbacks -/

/-- C3 counterexample: with a live pending confirmation stored (created at 0,
id `conf_0`), a reject callback carrying the stale id `conf_999` does NOT get
the expired message — it answers `❌ Ação cancelada.` and clears the
currently pending confirmation, refuting the claim for reject callbacks. -/
theorem c3_counterexample :
    ("conf_999" ≠ (createConfirmation [] "u" "complete_all_events" "d" "m" [] 0).1.id)
    ∧ (confirmNo (createConfirmation [] "u" "complete_all_events" "d" "m" [] 0).2
         "u" "conf_999").1 = "❌ Ação cancelada."
    ∧ alistFind (confirmNo (createConfirmation [] "u" "complete_all_events" "d" "m" [] 0).2
         "u" "conf_999").2 "u" = none := by
  exact ⟨by decide, rfl, by decide⟩

/-- C3 (amended): when the user's stored pending confirmation is live and the
callback carries a different id, an accept (`confirm_yes`) callback is
answered with the expired/already-handled message, the pending action is not
executed and the store is left unchanged; a reject (`confirm_no`) callback,
however, clears the user's pending confirmation unconditionally, without
comparing the carried id. -/
theorem c3_stale_accept_rejected_reject_clears (store : ConfirmationStore)
    (userId cbId : String) (now : Nat) (c : Confirmation)
    (hfind : alistFind store userId = some c) (hlive : now ≤ c.expires)
    (hstale : cbId ≠ c.id) :
    confirmYes store userId cbId now = (.stale, store)
    ∧ (confirmNo store userId cbId).2 = alistErase store userId := by
  constructor
  · simp only [confirmYes, getPendingConfirmation, hfind]
    rw [if_neg (by omega)]
    simp only []
    rw [if_pos (fun h => hstale h.symm)]
  · rfl

/-- C3 witness at a concrete store: user `u` holds a live confirmation with id
`conf_5`; the callbacks carry the stale id `conf_999` at time 10. -/
theorem c3_stale_accept_rejected_reject_clears_witness :
    confirmYes [("u", ⟨"conf_5", "u", "complete_all_events", "d", "m", [], 5, 120005⟩)]
        "u" "conf_999" 10
      = (.stale, [("u", ⟨"conf_5", "u", "complete_all_events", "d", "m", [], 5, 120005⟩)])
    ∧ (confirmNo [("u", ⟨"conf_5", "u", "complete_all_events", "d", "m", [], 5, 120005⟩)]
        "u" "conf_999").2
      = alistErase [("u", ⟨"conf_5", "u", "complete_all_events", "d", "m", [], 5, 120005⟩)] "u" :=
  c3_stale_accept_rejected_reject_clears _ "u" "conf_999" 10
    ⟨"conf_5", "u", "complete_all_events", "d", "m", [], 5, 120005⟩
    (by decide) (by decide) (by decide)

/-! ## Claim C7 — recordAction: no-op without an inverse, prepend-and-persist with one -/

/-- C7: for an action type with no configured inverse, `recordAction` leaves
the whole module state untouched (no entry, no disk write, `getLastAction`
unaffected); for an action type with inverse `u`, the new entry is prepended
to the user's capped list, it becomes the `getLastAction` answer, and the
history is persisted synchronously (the disk mirror equals the new in-memory
state and exactly one more write happened). -/
theorem c7_record_noop_or_prepend (s : HistoryState) (userId actionType data : String)
    (result : Option String) (now : Nat) (rand : String) :
    (UNDOABLE_ACTIONS actionType = none →
      recordAction s userId actionType data result now rand = s)
    ∧ (∀ u, UNDOABLE_ACTIONS actionType = some u →
      alistFind (recordAction s userId actionType data result now rand).actionHistory userId
        = some ((({ id := toString now ++ rand, type := actionType, undoType := u,
                    data := data, result := result, timestamp := now, undone := false,
                    undoneAt := none } : HistoryEntry)
                  :: (alistFind s.actionHistory userId).getD []).take MAX_HISTORY_PER_USER)
      ∧ getLastAction (recordAction s userId actionType data result now rand) userId
        = some { id := toString now ++ rand, type := actionType, undoType := u,
                 data := data, result := result, timestamp := now, undone := false,
                 undoneAt := none }
      ∧ (recordAction s userId actionType data result now rand).diskFile
        = (recordAction s userId actionType data result now rand).actionHistory
      ∧ (recordAction s userId actionType data result now rand).diskWrites
        = s.diskWrites + 1) := by
  constructor
  · intro h
    simp only [recordAction, h]
  · intro u h
    simp only [recordAction, h, saveHistory]
    set prior := (alistFind s.actionHistory userId).getD [] with hprior
    set entry : HistoryEntry :=
      { id := toString now ++ rand, type := actionType, undoType := u,
        data := data, result := result, timestamp := now, undone := false,
        undoneAt := none } with hentry
    have hbounded :
        (if MAX_HISTORY_PER_USER < (entry :: prior).length
         then (entry :: prior).take MAX_HISTORY_PER_USER
         else entry :: prior)
          = (entry :: prior).take MAX_HISTORY_PER_USER := by
      split
      · rfl
      · rw [List.take_of_length_le]
        omega
    rw [hbounded]
    have hfind2 := alistFind_set_self s.actionHistory userId
      ((entry :: prior).take MAX_HISTORY_PER_USER)
    refine ⟨hfind2, ?_, by trivial, by trivial⟩
    simp only [getLastAction, hfind2]
    have htake : (entry :: prior).take MAX_HISTORY_PER_USER
        = entry :: prior.take (MAX_HISTORY_PER_USER - 1) := rfl
    rw [htake, List.find?_cons_of_pos]
    rw [hentry]
    rfl

/-- C7 witness: `chat` has no configured inverse, so recording it on the empty
state is a no-op; recording `create_event` prepends an entry that
`getLastAction` then returns. -/
theorem c7_record_noop_or_prepend_witness :
    recordAction ⟨[], [], 0⟩ "u" "chat" "d" none 5 "x" = ⟨[], [], 0⟩
    ∧ getLastAction (recordAction ⟨[], [], 0⟩ "u" "create_event" "d" (some "ev1") 5 "x") "u"
      = some ⟨"5x", "create_event", "delete_event", "d", some "ev1", 5, false, none⟩ :=
  ⟨(c7_record_noop_or_prepend ⟨[], [], 0⟩ "u" "chat" "d" none 5 "x").1 rfl,
   ((c7_record_noop_or_prepend ⟨[], [], 0⟩ "u" "create_event" "d" (some "ev1") 5 "x").2
      "delete_event" rfl).2.1⟩

/-! ## Claim C8 — markAsUndone / getLastAction -/

theorem find?_decomp {α : Type} (p : α → Bool) :
    ∀ (l : List α) (e : α), l.find? p = some e →
      ∃ pre post, l = pre ++ e :: post ∧ (∀ b ∈ pre, p b = false) ∧ p e = true := by
  intro l
  induction l with
  | nil => intro e h; simp [List.find?] at h
  | cons a as ih =>
    intro e h
    by_cases hpa : p a = true
    · rw [List.find?_cons_of_pos _ hpa] at h
      obtain rfl : a = e := by injection h
      exact ⟨[], as, rfl, by simp, hpa⟩
    · rw [List.find?_cons_of_neg _ (by simpa using hpa)] at h
      obtain ⟨pre, post, h1, h2, h3⟩ := ih e h
      refine ⟨a :: pre, post, by rw [h1]; rfl, ?_, h3⟩
      intro b hb
      rcases List.mem_cons.mp hb with rfl | hb'
      · simpa using hpa
      · exact h2 b hb'

theorem find?_append_all_false {α : Type} (p : α → Bool) :
    ∀ (pre rest : List α), (∀ b ∈ pre, p b = false) →
      (pre ++ rest).find? p = rest.find? p := by
  intro pre
  induction pre with
  | nil => intro rest _; rfl
  | cons a as ih =>
    intro rest h
    rw [List.cons_append, List.find?_cons_of_neg, ih rest]
    · intro b hb
      exact h b (List.mem_cons_of_mem a hb)
    · simp [h a (List.mem_cons_self a as)]

theorem markFirst_decomp :
    ∀ (l l' : List HistoryEntry) (actionId : String) (now : Nat),
      markFirst l actionId now = some l' →
      ∃ pre a post, l = pre ++ a :: post ∧ a.id = actionId
        ∧ (∀ b ∈ pre, b.id ≠ actionId)
        ∧ l' = pre ++ { a with undone := true, undoneAt := some now } :: post := by
  intro l
  induction l with
  | nil => intro l' actionId now h; simp [markFirst] at h
  | cons a rest ih =>
    intro l' actionId now h
    by_cases hid : a.id = actionId
    · rw [markFirst, if_pos hid] at h
      refine ⟨[], a, rest, rfl, hid, by simp, ?_⟩
      injection h with h'
      exact h'.symm
    · rw [markFirst, if_neg hid] at h
      cases hrec : markFirst rest actionId now with
      | none => rw [hrec] at h; exact absurd h (by simp)
      | some rest' =>
        rw [hrec] at h
        obtain ⟨pre, x, post, h1, h2, h3, h4⟩ := ih rest' actionId now hrec
        refine ⟨a :: pre, x, post, by rw [h1]; rfl, h2, ?_, ?_⟩
        · intro b hb
          rcases List.mem_cons.mp hb with rfl | hb'
          · exact hid
          · exact h3 b hb'
        · injection h with h'
          rw [← h', h4]
          rfl

theorem markFirst_append_hit (pre : List HistoryEntry) (a : HistoryEntry)
    (post : List HistoryEntry) (actionId : String) (now : Nat)
    (hpre : ∀ b ∈ pre, b.id ≠ actionId) (ha : a.id = actionId) :
    markFirst (pre ++ a :: post) actionId now
      = some (pre ++ { a with undone := true, undoneAt := some now } :: post) := by
  induction pre with
  | nil => simp [markFirst, ha]
  | cons b bs ih =>
    rw [List.cons_append, markFirst, if_neg (hpre b (List.mem_cons_self b bs))]
    rw [ih (fun c hc => hpre c (List.mem_cons_of_mem b hc))]
    rfl

theorem alistSet_set {α : Type} (l : List (String × α)) (k : String) (v w : α) :
    alistSet (alistSet l k v) k w = alistSet l k w := by
  simp [alistSet, alistErase, List.filter_filter]

/-- C8 counterexample: with a single-entry history for user `u`, marking entry
`e1` as undone at time 1 and then again at time 2 does change the state — the
second call refreshes `undoneAt` (to 2) and rewrites the persistence file —
refuting "calling it again on the same entry changes nothing". -/
theorem c8_counterexample :
    (markAsUndone
        (markAsUndone
          ⟨[("u", [⟨"e1", "create_event", "delete_event", "d", none, 0, false, none⟩])], [], 0⟩
          "u" "e1" 1).1
        "u" "e1" 2).1
      ≠ (markAsUndone
          ⟨[("u", [⟨"e1", "create_event", "delete_event", "d", none, 0, false, none⟩])], [], 0⟩
          "u" "e1" 1).1 := by
  decide

/-- C8 (amended): `markAsUndone` sets the `undone` flag and the `undoneAt`
timestamp on the first entry carrying the id and never removes an entry;
repeating the call with the same timestamp leaves the stored history and the
persisted file content unchanged (only `undoneAt` is refreshed when the
timestamp differs); and after marking the entry `getLastAction` returned, a
subsequent `getLastAction` returns the next-most-recent entry whose `undone`
flag is false, or none when no such entry exists. -/
theorem c8_mark_flags_and_getLast_skips (s : HistoryState) (userId : String) (now : Nat) :
    (∀ (l l' : List HistoryEntry) (actionId : String),
      markFirst l actionId now = some l' →
      ∃ pre a post, l = pre ++ a :: post ∧ a.id = actionId
        ∧ l' = pre ++ { a with undone := true, undoneAt := some now } :: post)
    ∧ (∀ (actionId : String),
      (markAsUndone s userId actionId now).2 = true →
      (markAsUndone (markAsUndone s userId actionId now).1 userId actionId now).1.actionHistory
        = (markAsUndone s userId actionId now).1.actionHistory
      ∧ (markAsUndone (markAsUndone s userId actionId now).1 userId actionId now).1.diskFile
        = (markAsUndone s userId actionId now).1.diskFile)
    ∧ (∀ (l : List HistoryEntry) (e : HistoryEntry),
      alistFind s.actionHistory userId = some l →
      (l.map (fun a => a.id)).Nodup →
      getLastAction s userId = some e →
      ∃ pre post, l = pre ++ e :: post ∧ (∀ b ∈ pre, b.undone = true)
        ∧ getLastAction (markAsUndone s userId e.id now).1 userId
            = post.find? (fun b => !b.undone)) := by
  refine ⟨?_, ?_, ?_⟩
  · intro l l' actionId h
    obtain ⟨pre, a, post, h1, h2, _, h4⟩ := markFirst_decomp l l' actionId now h
    exact ⟨pre, a, post, h1, h2, h4⟩
  · intro actionId hsucc
    cases hfind : alistFind s.actionHistory userId with
    | none => simp [markAsUndone, hfind] at hsucc
    | some l =>
      cases hmark : markFirst l actionId now with
      | none => simp [markAsUndone, hfind, hmark] at hsucc
      | some l' =>
        have h1 : markAsUndone s userId actionId now
            = (saveHistory { s with actionHistory := alistSet s.actionHistory userId l' }, true) := by
          simp [markAsUndone, hfind, hmark]
        obtain ⟨pre, a, post, hl, haid, hpre, hl'⟩ := markFirst_decomp l l' actionId now hmark
        have hmark2 : markFirst l' actionId now = some l' := by
          rw [hl']
          exact markFirst_append_hit pre { a with undone := true, undoneAt := some now }
            post actionId now hpre haid
        rw [h1]
        simp only [markAsUndone, saveHistory, alistFind_set_self, hmark2, alistSet_set]
        constructor <;> trivial
  · intro l e hfind hnodup hlast
    have hfe : l.find? (fun a => !a.undone) = some e := by
      simpa [getLastAction, hfind] using hlast
    obtain ⟨pre, post, hl, hpre, hpe⟩ := find?_decomp _ l e hfe
    have hpreid : ∀ b ∈ pre, b.id ≠ e.id := by
      rw [hl, List.map_append, List.nodup_append] at hnodup
      obtain ⟨-, -, hdisj⟩ := hnodup
      intro b hb heq
      exact hdisj (List.mem_map_of_mem _ hb) (by simp [heq])
    have hmark : markFirst l e.id now
        = some (pre ++ { e with undone := true, undoneAt := some now } :: post) := by
      rw [hl]
      exact markFirst_append_hit pre e post e.id now hpreid rfl
    refine ⟨pre, post, hl, fun b hb => by simpa using hpre b hb, ?_⟩
    simp only [markAsUndone, hfind, hmark, saveHistory, getLastAction, alistFind_set_self]
    rw [find?_append_all_false _ pre _ hpre]
    rw [List.find?_cons_of_neg]
    simp

/-- C8 witness: user `u` has entries `a` (newest, not undone) and `b`; marking
`a` as undone succeeds, and repeating the call at the same timestamp leaves
the stored history unchanged. -/
theorem c8_mark_flags_and_getLast_skips_witness :
    (markAsUndone
        (markAsUndone
          ⟨[("u", [⟨"a", "create_event", "delete_event", "d", none, 0, false, none⟩,
                   ⟨"b", "trello_create", "trello_delete", "d", none, 0, false, none⟩])], [], 0⟩
          "u" "a" 7).1
        "u" "a" 7).1.actionHistory
      = (markAsUndone
          ⟨[("u", [⟨"a", "create_event", "delete_event", "d", none, 0, false, none⟩,
                   ⟨"b", "trello_create", "trello_delete", "d", none, 0, false, none⟩])], [], 0⟩
          "u" "a" 7).1.actionHistory :=
  ((c8_mark_flags_and_getLast_skips
      ⟨[("u", [⟨"a", "create_event", "delete_event", "d", none, 0, false, none⟩,
               ⟨"b", "trello_create", "trello_delete", "d", none, 0, false, none⟩])], [], 0⟩
      "u" 7).2.1 "a" (by decide)).1

/-! ## Claim C1 — the cancel keyword in the pendingEventUpdate flow-state -/

/-- C1 counterexample: with a pending event-edit awaiting a new title
(`field = "summary"`), the incoming text `cancelar` is NOT treated as a
cancel keyword — the handler issues an update call setting the event's title
to the literal string `cancelar` (the flow-state is cleared, but an update is
sent), refuting the claim that no update call reaches the remote calendar. -/
theorem c1_counterexample :
    (handlePendingEventUpdate ⟨"ev1", "summary"⟩ "cancelar" { tipo := "chat" }
        (fun s => s) (fun s => s)).updateCalls
      = [("ev1", { summary := some "cancelar" })] := by
  rfl

/-- C1 (amended): the explicit cancel keywords (`cancelar` / `voltar`) return
the user to idle without executing the pending action only in the `time`
sub-state of `pendingEventUpdate`; in the `summary` sub-state any incoming
text — the word `cancelar` included — is sent verbatim as the new event
title, though the flow-state slot is cleared in both cases. -/
theorem c1_cancel_only_in_time_substate (id text : String) (timeIntent : Intent)
    (plusOneHour friendly : String → String) :
    ((toLowerStr text = "cancelar" ∨ toLowerStr text = "voltar") →
      handlePendingEventUpdate ⟨id, "time"⟩ text timeIntent plusOneHour friendly
        = { updateCalls := [], replies := ["👍 Edição de horário cancelada."],
            sessionAfter := none, invalidated := [] })
    ∧ handlePendingEventUpdate ⟨id, "summary"⟩ text timeIntent plusOneHour friendly
        = { updateCalls := [(id, { summary := some text })],
            replies := ["✅ Título atualizado!"], sessionAfter := none,
            invalidated := ["events"] } := by
  constructor
  · intro h
    rcases h with h | h <;> simp [handlePendingEventUpdate, h]
  · simp [handlePendingEventUpdate]

/-- C1 witness: `cancelar` cancels a pending time edit but is taken as the new
title for a pending summary edit. -/
theorem c1_cancel_only_in_time_substate_witness :
    handlePendingEventUpdate ⟨"ev9", "time"⟩ "cancelar" { tipo := "chat" }
        (fun s => s) (fun s => s)
      = { updateCalls := [], replies := ["👍 Edição de horário cancelada."],
          sessionAfter := none, invalidated := [] }
    ∧ handlePendingEventUpdate ⟨"ev9", "summary"⟩ "cancelar" { tipo := "chat" }
        (fun s => s) (fun s => s)
      = { updateCalls := [("ev9", { summary := some "cancelar" })],
          replies := ["✅ Título atualizado!"], sessionAfter := none,
          invalidated := ["events"] } :=
  ⟨(c1_cancel_only_in_time_substate "ev9" "cancelar" { tipo := "chat" }
      (fun s => s) (fun s => s)).1 (Or.inl rfl),
   (c1_cancel_only_in_time_substate "ev9" "cancelar" { tipo := "chat" }
      (fun s => s) (fun s => s)).2⟩

/-! ## Claim C2 — create_event success path records no history entry -/

/-- C2: at the failing input — a conflict-free, context-valid `create_event`
intent with title `Reunião` — the dispatcher issues the create call,
invalidates the `events` cache and replies with a success message containing
the title, but the action-history state is left exactly as it was (no
`create_event` entry is recorded, so `getLastAction` still has nothing to
undo), contradicting the claim and the spec's scenario A. -/
theorem c2_create_event_records_no_history :
    scenarioAOutcome.createCalls = [scenarioAIntent]
    ∧ scenarioAOutcome.invalidated = ["events"]
    ∧ scenarioAOutcome.replies
      = ["✅ *Agendado:* [" ++ "Reunião" ++ "](https://cal/ev1)\n📅 amanhã às 14:00"]
    ∧ scenarioAOutcome.hist = ⟨[], [], 0⟩
    ∧ getLastAction scenarioAOutcome.hist "146495410" = none := by
  exact ⟨rfl, rfl, rfl, rfl, rfl⟩

/-! ## Claim C5 — numeric-prefixed queries beat fuzzy matching -/

/-- C5: when the query reduces to a bare number (optionally preceded by a word
such as `item` or `card`) and some card's name starts with that number
zero-padded to two digits and a period (or the bare number and a period),
`findTrelloCardByQuery` returns such a card — the first one in the list — and
this answer is independent of the fuzzy matcher and of the remote search
fallback, i.e. the numeric stage wins before any fuzzy text matching runs. -/
theorem c5_numeric_match_priority (cards : List TrelloCard) (query num : String)
    (h1 : numberMatch query = some num)
    (h2 : ∃ c ∈ cards, numericCardHit num c = true) :
    ∃ c, cards.find? (numericCardHit num) = some c ∧ numericCardHit num c = true
      ∧ ∀ (fuzzy : List TrelloCard → String → Option TrelloCard)
          (searchApi : Except Unit (List TrelloCard)),
          findTrelloCardByQuery fuzzy searchApi cards query = some c := by
  have hs : (cards.find? (numericCardHit num)).isSome = true := by
    rw [List.find?_isSome]
    exact h2
  obtain ⟨c, hc⟩ := Option.isSome_iff_exists.mp hs
  refine ⟨c, hc, List.find?_some hc, ?_⟩
  intro fuzzy searchApi
  simp only [findTrelloCardByQuery, h1, hc]

/-- C5 witness: query `item 2` against a list holding `02. Relatório` returns
that card even when the fuzzy matcher and the remote search would both return
different cards. -/
theorem c5_numeric_match_priority_witness :
    findTrelloCardByQuery (fun _ _ => some ⟨"cx", "Relatório fuzzy"⟩)
        (.ok [⟨"cy", "outro"⟩]) [⟨"c1", "02. Relatório"⟩] "item 2"
      = some ⟨"c1", "02. Relatório"⟩ := by
  obtain ⟨c, hfind, -, hall⟩ :=
    c5_numeric_match_priority [⟨"c1", "02. Relatório"⟩] "item 2" "2" rfl
      ⟨⟨"c1", "02. Relatório"⟩, by decide, by decide⟩
  have hval : List.find? (numericCardHit "2") [(⟨"c1", "02. Relatório"⟩ : TrelloCard)]
      = some ⟨"c1", "02. Relatório"⟩ := by decide
  have h2 := hall (fun _ _ => some ⟨"cx", "Relatório fuzzy"⟩) (.ok [⟨"cy", "outro"⟩])
  rw [h2, ← hfind]
  exact hval

/-! ## Claim C6 — conflict detection and create gating (spec-modelled engine) -/

/-- C6 counterexample: a time-specific proposal (06:00–07:00 in minutes:
60–120) overlaps an all-day commitment covering the whole day (0–1440), yet
`hasConflict` is `false` — the spec's own design choice excludes
all-day/date-only entries when the proposal is time-specific, so "overlaps
any existing commitment's interval implies conflict" fails as stated. -/
theorem c6_counterexample :
    intervalsOverlap 60 120 0 1440 = true
    ∧ (checkConflicts [⟨0, 1440, true⟩] ⟨60, some 120, true⟩).hasConflict = false := by
  decide

/-- C6 (amended, spec-modelled engine): `hasConflict` is true whenever the
proposed interval overlaps an existing commitment that is not excluded by the
all-day rule (i.e. not a date-only entry against a time-specific proposal),
`hasConflict` is false whenever the proposed interval overlaps no existing
commitment at all (it lies fully inside a gap), and the dispatcher's
`create_event` branch issues no remote create call whenever the conflict
check reports a conflict. -/
theorem c6_overlap_conflict_and_create_gating (existing : List Commitment) (p : Proposal) :
    ((∃ c ∈ existing,
        intervalsOverlap p.start (p.stop.getD (p.start + DEFAULT_DURATION)) c.start c.stop = true
        ∧ (c.dateOnly && p.timeSpecific) = false) →
      (checkConflicts existing p).hasConflict = true)
    ∧ ((∀ c ∈ existing,
        intervalsOverlap p.start (p.stop.getD (p.start + DEFAULT_DURATION)) c.start c.stop = false) →
      (checkConflicts existing p).hasConflict = false)
    ∧ (∀ (intent : Intent) (cc : ConflictCheck) (msg : String) (cv : ContextValidation)
        (ev : CreatedEvent) (fd : String) (hist : HistoryState),
        cc.hasConflict = true →
        (processCreateEvent intent cc msg cv ev fd hist).createCalls = []) := by
  refine ⟨?_, ?_, ?_⟩
  · rintro ⟨c, hmem, hov, hflag⟩
    simp only [checkConflicts]
    rw [List.any_eq_true]
    exact ⟨c, hmem, by rw [hov, hflag]; rfl⟩
  · intro h
    simp only [checkConflicts]
    rw [List.any_eq_false]
    intro c hmem
    rw [h c hmem]
    simp
  · intro intent cc msg cv ev fd hist hcc
    simp [processCreateEvent, hcc]

/-- C6 witness: a timed proposal overlapping a timed commitment conflicts; a
proposal inside a gap between two timed commitments does not; a conflicting
check yields no create call. -/
theorem c6_overlap_conflict_and_create_gating_witness :
    (checkConflicts [⟨100, 200, false⟩] ⟨150, some 250, true⟩).hasConflict = true
    ∧ (checkConflicts [⟨0, 50, false⟩, ⟨300, 400, false⟩] ⟨60, some 120, true⟩).hasConflict = false
    ∧ (processCreateEvent { tipo := "create_event" } ⟨true, []⟩ "m" ⟨true, []⟩
        ⟨"e", "l", none⟩ "d" ⟨[], [], 0⟩).createCalls = [] :=
  ⟨(c6_overlap_conflict_and_create_gating [⟨100, 200, false⟩] ⟨150, some 250, true⟩).1
      ⟨⟨100, 200, false⟩, by decide, by decide, by decide⟩,
   (c6_overlap_conflict_and_create_gating [⟨0, 50, false⟩, ⟨300, 400, false⟩]
      ⟨60, some 120, true⟩).2.1 (by decide),
   (c6_overlap_conflict_and_create_gating [] ⟨0, none, true⟩).2.2
      { tipo := "create_event" } ⟨true, []⟩ "m" ⟨true, []⟩ ⟨"e", "l", none⟩ "d" ⟨[], [], 0⟩ rfl⟩

/-! ## Claim C9 — per-intent failure isolation in the batch loop -/

/-- C9: intents are processed strictly in order; when `processIntent` throws
on intent `y` somewhere in the batch, the loop still emits, in order, the
replies of every preceding intent, then the warning naming `y.tipo`, then the
replies of every following intent — one failure neither aborts nor alters the
processing of the rest. -/
theorem dispatchBatch_cons (process : Intent → Except String (List String))
    (i : Intent) (rest : List Intent) :
    dispatchBatch process (i :: rest)
      = (match process i with
         | .ok replies => replies
         | .error _ => [intentFailureMsg i.tipo]) ++ dispatchBatch process rest := rfl

theorem c9_intent_failure_isolated (process : Intent → Except String (List String))
    (xs zs : List Intent) (y : Intent) (e : String) (h : process y = .error e) :
    dispatchBatch process (xs ++ y :: zs)
      = dispatchBatch process xs ++ intentFailureMsg y.tipo :: dispatchBatch process zs := by
  induction xs with
  | nil => simp [dispatchBatch, h]
  | cons a as ih =>
    rw [List.cons_append, dispatchBatch_cons, ih, dispatchBatch_cons, List.append_assoc]

/-- C9 witness: in a three-intent batch whose middle intent throws, the first
intent's reply, the warning naming the failed intent's type, and the third
intent's reply all appear, in order. -/
theorem c9_intent_failure_isolated_witness :
    dispatchBatch
        (fun i => if i.tipo = "boom" then .error "X" else .ok ["ok-" ++ i.tipo])
        [{ tipo := "a" }, { tipo := "boom" }, { tipo := "b" }]
      = ["ok-a", intentFailureMsg "boom", "ok-b"] := by
  have h := c9_intent_failure_isolated
    (fun i => if i.tipo = "boom" then .error "X" else .ok ["ok-" ++ i.tipo])
    [{ tipo := "a" }] [{ tipo := "b" }] { tipo := "boom" } "X" (by rfl)
  simpa using h

/-! ## Claim C10 — trello_create auto-numbering -/

theorem maxNumericPfx_init_le (f : Nat → TrelloCard → Nat)
    (hf : ∀ m c, m ≤ f m c) : ∀ (l : List TrelloCard) (m : Nat), m ≤ l.foldl f m := by
  intro l
  induction l with
  | nil => intro m; exact Nat.le_refl m
  | cons c cs ih => intro m; exact Nat.le_trans (hf m c) (ih (f m c))

theorem maxNumericPfx_bound :
    ∀ (l : List TrelloCard) (m : Nat) (c : TrelloCard) (k : Nat),
      c ∈ l → numericPfx c.name = some k →
      k ≤ l.foldl (fun m c =>
        match numericPfx c.name with
        | some n => if m < n then n else m
        | none => m) m := by
  have hstep : ∀ (m : Nat) (c : TrelloCard),
      m ≤ (match numericPfx c.name with
           | some n => if m < n then n else m
           | none => m) := by
    intro m c
    cases numericPfx c.name with
    | none => exact Nat.le_refl m
    | some n =>
      simp only []
      split
      · omega
      · exact Nat.le_refl m
  intro l
  induction l with
  | nil => intro m c k hmem; cases hmem
  | cons a as ih =>
    intro m c k hmem hk
    rcases List.mem_cons.mp hmem with rfl | hmem'
    · simp only [List.foldl_cons]
      refine Nat.le_trans ?_ (maxNumericPfx_init_le _ hstep as _)
      rw [hk]
      simp only []
      split
      · exact Nat.le_refl k
      · omega
    · simp only [List.foldl_cons]
      exact ih _ c k hmem' hk

/-- C10: for a non-empty card name with no existing digits-and-period lead,
the auto-numbered name is the zero-padded successor of the greatest numeric
lead among the target list's cards, followed by `. ` and the name; that
accumulated value really bounds every card's numeric lead; when no card
carries a numeric lead the result is `01. ` plus the name; and an error while
fetching the list's cards leaves the name unchanged, so the card is still
created, merely without a sequence number. -/
theorem c10_auto_numbering (cards : List TrelloCard) (name : String)
    (hname : strIsEmpty name = false) (hnopfx : numericPfx name = none) :
    autoNumberedName (.ok cards) name
      = padStart2 (toString (maxNumericPfx cards + 1)) ++ ". " ++ name
    ∧ (∀ c ∈ cards, ∀ k, numericPfx c.name = some k → k ≤ maxNumericPfx cards)
    ∧ ((∀ c ∈ cards, numericPfx c.name = none) →
        autoNumberedName (.ok cards) name = "01. " ++ name)
    ∧ autoNumberedName (.error ()) name = name := by
  have hmain : autoNumberedName (.ok cards) name
      = padStart2 (toString (maxNumericPfx cards + 1)) ++ ". " ++ name := by
    simp only [autoNumberedName, hname, hnopfx]
    rfl
  refine ⟨hmain, ?_, ?_, rfl⟩
  · intro c hmem k hk
    exact maxNumericPfx_bound cards 0 c k hmem hk
  · intro hall
    have hfold : maxNumericPfx cards = 0 := by
      have : ∀ (l : List TrelloCard), (∀ c ∈ l, numericPfx c.name = none) →
          ∀ m, l.foldl (fun m c =>
            match numericPfx c.name with
            | some n => if m < n then n else m
            | none => m) m = m := by
        intro l
        induction l with
        | nil => intro _ m; rfl
        | cons a as ih =>
          intro hl m
          simp only [List.foldl_cons, hl a (List.mem_cons_self a as)]
          exact ih (fun c hc => hl c (List.mem_cons_of_mem a hc)) m
      exact this cards hall 0
    rw [hmain, hfold]
    rfl

/-- C10 witness: with existing cards `02. X` and `Y`, a new card `Nova` gets
the sequence number `03. `; when fetching the list's cards errors, the name
stays `Nova`. -/
theorem c10_auto_numbering_witness :
    autoNumberedName (.ok [⟨"a", "02. X"⟩, ⟨"b", "Y"⟩]) "Nova" = "03. Nova"
    ∧ autoNumberedName (.error ()) "Nova" = "Nova" :=
  ⟨(c10_auto_numbering [⟨"a", "02. X"⟩, ⟨"b", "Y"⟩] "Nova" rfl rfl).1,
   (c10_auto_numbering [⟨"a", "02. X"⟩, ⟨"b", "Y"⟩] "Nova" rfl rfl).2.2.2⟩

end MeuBotAgenda
